import Mathlib

/-!
Shallow embedding of the GitLab Gantt chart core
(`src/hooks/useGitLabData.ts`, `src/api/gitlab.ts`,
`src/components/GanttChart.tsx`).

Modelling conventions:
* A JavaScript `Date` is its millisecond timestamp, an `Int`.  All `Date`
  values held in task state are valid dates (the code only stores results of
  a successful parse, `new Date()` or arithmetic on those), so the
  `instanceof Date && !isNaN(...)` guards of the chart conversion hold.
* `new Date(string)` parsing is environment behaviour; it is passed in as a
  function `p : String → Option Date` (`none` = Invalid Date).  Likewise the
  wall clock read `new Date()` is passed in as `today : Date`, and the JS
  calendar operation `setMonth` as `addM : Date → Int → Date`.
* Optional JS object fields become `Option`; boolean fields that are tested
  only for truthiness (`isSubtask`, `hasOriginalStartDate`, ...) become
  `Bool` with default `false`, which has the same observable behaviour as an
  absent field.
* `Math.round(100 * c / n)` for natural `c ≤ n` is exact-rational rounding
  half up, `(200 * c + n) / (2 * n)` in natural division.
-/

/-- Milliseconds since the Unix epoch, the value of a JS `Date`. -/
abbrev Date := Int

/-- `defaultDuration = 7` days, from `convertToGanttTasks`. -/
def defaultDuration : Int := 7

def milestoneLit : String := "milestone-"
def issueLit : String := "issue-"
def taskMidLit : String := "-task-"
def msgMilFail : String := "Failed to update milestone"
def msgIssueFail : String := "Failed to update issue"
def untitledLit : String := "Untitled"
def openedLit : String := "opened"
def keyIssueState : String := "issueState"
def keyDateRange : String := "dateRange"
def keyStartDate : String := "startDate"
def keyEndDate : String := "endDate"
def keySelMil : String := "selectedMilestoneIds"

/-- Strip a literal character sequence from the front of a list; `none` if it
is not a prefix.  Used to model the anchored regexes
`/^milestone-(\d+)$/` and `/^issue-(\d+)$/`. -/
def stripLit : List Char → List Char → Option (List Char)
  | [], s => some s
  | _ :: _, [] => none
  | p :: ps, c :: cs => if p = c then stripLit ps cs else none

/-- Numeric value of a decimal digit string (the capture group `(\d+)`
interpreted by `parseInt(-, 10)`). -/
def readNatDigits (l : List Char) : Nat :=
  l.foldl (fun a c => a * 10 + (c.toNat - 48)) 0

/-- `taskId.match(/^lit(\d+)$/)`: the whole string must be the literal
followed by one or more digits; returns the parsed number. -/
def matchIdNum (lit : String) (s : String) : Option Nat :=
  match stripLit lit.data s.data with
  | none => none
  | some rest =>
      if rest ≠ [] ∧ rest.all Char.isDigit then some (readNatDigits rest) else none

/-- JS `String.prototype.trim` on a character list (whitespace per
`Char.isWhitespace`, covering the ASCII cases of JS `\s`). -/
def trimChars (l : List Char) : List Char :=
  ((l.dropWhile Char.isWhitespace).reverse.dropWhile Char.isWhitespace).reverse

/-- Split a character list at JS line terminators `\n` and `\r` (the
boundaries at which the `m`-flag `^`/`$` anchors match). -/
def splitLinesAux : List Char → List Char → List (List Char)
  | [], acc => [acc.reverse]
  | c :: cs, acc =>
      if c = '\n' ∨ c = '\r' then acc.reverse :: splitLinesAux cs []
      else splitLinesAux cs (c :: acc)

/-- All lines of a description. -/
def splitLines (s : String) : List (List Char) :=
  splitLinesAux s.data []

inductive IssueState where
  | opened
  | closed
  deriving DecidableEq

inductive TaskType where
  | task
  | summary
  deriving DecidableEq

/-- A checklist item `{ text, checked }` (`TaskItem` in `gitlab.ts`). -/
structure TaskItem where
  text : String
  checked : Bool
  deriving DecidableEq

structure GitLabLabel where
  id : Nat
  name : String
  color : String
  text_color : String
  deriving DecidableEq

structure AssigneeRec where
  id : Nat
  name : String
  avatar_url : String
  deriving DecidableEq

structure MilestoneRef where
  id : Nat
  deriving DecidableEq

structure TaskCompletion where
  count : Nat
  completed_count : Nat
  deriving DecidableEq

structure GitLabMilestone where
  id : Nat
  iid : Nat
  title : String
  start_date : Option String
  due_date : Option String
  web_url : String
  deriving DecidableEq

structure ParsedIssue where
  id : Nat
  iid : Nat
  title : String
  state : IssueState
  start_date : Option String
  due_date : Option String
  created_at : String
  milestone : Option MilestoneRef
  assignees : List AssigneeRec
  labelObjects : List GitLabLabel
  web_url : String
  task_completion_status : Option TaskCompletion
  tasks : List TaskItem
  deriving DecidableEq

structure LabelInfo where
  name : String
  color : String
  textColor : String
  deriving DecidableEq

structure AssigneeInfo where
  id : Nat
  name : String
  avatarUrl : String
  deriving DecidableEq

/-- The `GanttTask` record built by `convertToGanttTasks`.  Fields that a
given node kind does not set keep their default (`none` / `false`),
mirroring the absent JS object fields. -/
structure GanttTask where
  id : String
  text : String
  start : Date
  «end» : Date
  progress : Option Nat := none
  type : TaskType
  parent : Option String := none
  «open» : Option Bool := none
  isSubtask : Bool := false
  gitlabId : Nat
  gitlabIid : Option Nat := none
  webUrl : Option String := none
  milestoneId : Option Nat := none
  labels : Option (List LabelInfo) := none
  assignees : Option (List AssigneeInfo) := none
  issueState : Option IssueState := none
  hasOriginalStartDate : Bool := false
  hasOriginalDueDate : Bool := false
  deriving DecidableEq

structure DateRangeFilter where
  startDate : Option Date
  endDate : Option Date
  deriving DecidableEq

/-- `parseDate`: `null`/`undefined`/`""` are falsy and give `null`; otherwise
`new Date(str)`, with Invalid Date mapped to `null`. -/
def parseDate (p : String → Option Date) (s : Option String) : Option Date :=
  match s with
  | none => none
  | some str => if str = "" then none else p str

/-- After the bullet marker: `\s*\[([ xX])\]\s*(.+)$`.  The checkbox is a
literal `[`, one of the three mark characters, a literal `]`; `(.+)`
requires at least one further character, and the captured text (whatever
`\s*` leaves to the group) is trimmed, which equals trimming everything
after the `]`. -/
def bulletPart (r1 : List Char) : Option TaskItem :=
  match r1.dropWhile Char.isWhitespace with
  | c1 :: m :: c2 :: rest =>
      if c1 = '[' ∧ c2 = ']' ∧ (m = ' ' ∨ m = 'x' ∨ m = 'X') ∧ rest ≠ [] then
        some { text := String.mk (trimChars rest),
               checked := m == 'x' || m == 'X' }
      else none
  | _ => none

/-- `parseTasksFromDescription`'s regex applied to a single line:
`/^[\s]*[-*]\s*\[([ xX])\]\s*(.+)$/`. -/
def matchTaskLine (l : List Char) : Option TaskItem :=
  match l.dropWhile Char.isWhitespace with
  | [] => none
  | b :: r1 => if b = '-' ∨ b = '*' then bulletPart r1 else none

/-- The per-line extraction underlying the global regex scan: matching lines,
in order of appearance. -/
def parseLines (lines : List (List Char)) : List TaskItem :=
  lines.filterMap matchTaskLine

/-- `parseTasksFromDescription` from `gitlab.ts` (`null` and `""` are falsy
and yield `[]`). -/
def parseTasksFromDescription (description : Option String) : List TaskItem :=
  match description with
  | none => []
  | some d => if d = "" then [] else parseLines (splitLines d)

/-- `Math.round(100 * completed / count)` (exact rational, rounded half
up). -/
def jsRoundPct (completed count : Nat) : Nat :=
  (200 * completed + count) / (2 * count)

/-- The `progress` computation for an issue node. -/
def issueProgress (i : ParsedIssue) : Nat :=
  match i.task_completion_status with
  | some tcs =>
      if 0 < tcs.count then jsRoundPct tcs.completed_count tcs.count
      else if i.state = IssueState.closed then 100 else 0
  | none => if i.state = IssueState.closed then 100 else 0

/-- The milestone (summary) node pushed by `convertToGanttTasks`. -/
def convertMilestone (p : String → Option Date) (today : Date)
    (m : GitLabMilestone) : GanttTask :=
  let hs := (parseDate p m.start_date).isSome
  let hd := (parseDate p m.due_date).isSome
  let start := (parseDate p m.start_date).getD today
  let e := (parseDate p m.due_date).getD
    (start + defaultDuration * 24 * 60 * 60 * 1000)
  { id := milestoneLit ++ toString m.id
    text := m.title
    start := start
    «end» := e
    type := TaskType.summary
    «open» := some true
    gitlabId := m.id
    webUrl := some m.web_url
    milestoneId := some m.id
    hasOriginalStartDate := hs
    hasOriginalDueDate := hd }

/-- The issue (task) node pushed by `convertToGanttTasks`.  Note the `||`
chain for `start` and the truthiness test on `issue.milestone?.id`. -/
def convertIssueMain (p : String → Option Date) (today : Date)
    (i : ParsedIssue) : GanttTask :=
  let parentId : Option String :=
    match i.milestone with
    | some m => if m.id ≠ 0 then some (milestoneLit ++ toString m.id) else none
    | none => none
  let hs := (parseDate p i.start_date).isSome
  let hd := (parseDate p i.due_date).isSome
  let start :=
    match parseDate p i.start_date with
    | some d => d
    | none =>
        match parseDate p (some i.created_at) with
        | some d => d
        | none => today
  let e := (parseDate p i.due_date).getD
    (start + defaultDuration * 24 * 60 * 60 * 1000)
  { id := issueLit ++ toString i.id
    text := i.title
    start := start
    «end» := e
    progress := some (issueProgress i)
    type := TaskType.task
    parent := parentId
    «open» := some true
    gitlabId := i.id
    gitlabIid := some i.iid
    webUrl := some i.web_url
    labels := some (i.labelObjects.map fun l =>
      { name := l.name, color := l.color, textColor := l.text_color })
    assignees := some (i.assignees.map fun a =>
      { id := a.id, name := a.name, avatarUrl := a.avatar_url })
    issueState := some i.state
    hasOriginalStartDate := hs
    hasOriginalDueDate := hd }

/-- A checklist sub-item node (`issue-{id}-task-{index}`), inheriting the
issue's computed `start`/`end`. -/
def convertIssueSub (i : ParsedIssue) (start e : Date) (idx : Nat)
    (it : TaskItem) : GanttTask :=
  { id := issueLit ++ toString i.id ++ taskMidLit ++ toString idx
    text := it.text
    start := start
    «end» := e
    progress := some (if it.checked then 100 else 0)
    type := TaskType.task
    parent := some (issueLit ++ toString i.id)
    isSubtask := true
    gitlabId := i.id
    gitlabIid := some i.iid }

/-- All nodes pushed for one issue: the issue node, then one sub-item per
checklist entry (the `length > 0` guard is the same as mapping the possibly
empty list). -/
def convertIssue (p : String → Option Date) (today : Date)
    (i : ParsedIssue) : List GanttTask :=
  let main := convertIssueMain p today i
  main :: i.tasks.enum.map fun pr => convertIssueSub i main.start main.«end» pr.1 pr.2

/-- `convertToGanttTasks`: all milestone nodes, then per issue its node and
sub-items.  `today = new Date()` is the single wall-clock read of the
function, modelled as a parameter. -/
def convertToGanttTasks (p : String → Option Date) (today : Date)
    (milestones : List GitLabMilestone) (issues : List ParsedIssue) :
    List GanttTask :=
  milestones.map (convertMilestone p today) ++
    issues.flatMap (convertIssue p today)

/-- The date-window overlap test of `filterTasksByDateRange`'s first pass
(the `if (dateRange.startDate && dateRange.endDate) ... else if ...`
ladder). -/
def rangeKeep (dr : DateRangeFilter) (t : GanttTask) : Bool :=
  match dr.startDate, dr.endDate with
  | some s, some e => decide (t.start ≤ e) && decide (s ≤ t.«end»)
  | some s, none => decide (s ≤ t.«end»)
  | none, some e => decide (t.start ≤ e)
  | none, none => true

/-- First-pass predicate of `filterTasksByDateRange`: drop summaries, keep
subtasks, keep issues with neither original date, else overlap test. -/
def firstPass (dr : DateRangeFilter) (t : GanttTask) : Bool :=
  if t.type = TaskType.summary then false
  else if t.isSubtask then true
  else if !t.hasOriginalStartDate && !t.hasOriginalDueDate then true
  else rangeKeep dr t

/-- `if (task.parent) parentIdsWithChildren.add(task.parent)` — the parent
id when it is truthy (present and non-empty). -/
def truthyParent (t : GanttTask) : Option String :=
  match t.parent with
  | some pr => if pr = "" then none else some pr
  | none => none

/-- `!task.isSubtask || (task.parent && issueIds.has(task.parent))`. -/
def subParentOk (issueIds : List String) (t : GanttTask) : Bool :=
  match t.parent with
  | some pr => !(pr == "") && issueIds.contains pr
  | none => false

/-- `filteredTasks`: the first pass of `filterTasksByDateRange`. -/
def filteredOf (dr : DateRangeFilter) (tasks : List GanttTask) :
    List GanttTask :=
  tasks.filter (firstPass dr)

/-- `parentIdsWithChildren`: all truthy parent ids of first-pass
survivors. -/
def parentIdsOf (dr : DateRangeFilter) (tasks : List GanttTask) :
    List String :=
  (filteredOf dr tasks).filterMap truthyParent

/-- Second pass: summaries kept only when some first-pass survivor names
them as parent. -/
def milestonesOf (dr : DateRangeFilter) (tasks : List GanttTask) :
    List GanttTask :=
  tasks.filter fun t =>
    decide (t.type = TaskType.summary) && (parentIdsOf dr tasks).contains t.id

/-- `issueIds`: ids of the non-subtask first-pass survivors. -/
def issueIdsOf (dr : DateRangeFilter) (tasks : List GanttTask) :
    List String :=
  ((filteredOf dr tasks).filter fun t => !t.isSubtask).map fun t => t.id

/-- `validSubtasks`: survivors whose subtasks point at a surviving issue. -/
def validSubtasksOf (dr : DateRangeFilter) (tasks : List GanttTask) :
    List GanttTask :=
  (filteredOf dr tasks).filter fun t =>
    !t.isSubtask || subParentOk (issueIdsOf dr tasks) t

/-- The body of `filterTasksByDateRange` past the all-`null` early return:
`[...milestones, ...validSubtasks]`. -/
def filterCore (dr : DateRangeFilter) (tasks : List GanttTask) :
    List GanttTask :=
  milestonesOf dr tasks ++ validSubtasksOf dr tasks

/-- `filterTasksByDateRange` from `useGitLabData.ts`. -/
def filterTasksByDateRange (tasks : List GanttTask) (dr : DateRangeFilter) :
    List GanttTask :=
  if dr.startDate = none ∧ dr.endDate = none then tasks
  else filterCore dr tasks

/-- `task.milestoneId` is truthy (present and non-zero). -/
def milestoneIdTruthy (t : GanttTask) : Bool :=
  match t.milestoneId with
  | some m => !(m == 0)
  | none => false

/-- The milestone-selection predicate of the filter effect in
`useGitLabData` (applied when `selectedMilestoneIds` is non-empty). -/
def milestoneKeep (sel : List Nat) (t : GanttTask) : Bool :=
  if decide (t.type = TaskType.summary) && milestoneIdTruthy t then
    sel.contains (t.milestoneId.getD 0)
  else if t.type = TaskType.task then
    match t.parent with
    | some pr =>
        match matchIdNum milestoneLit pr with
        | some nid => sel.contains nid
        | none => false
    | none => false
  else true

/-- The complete filter effect: date-range filter, then the milestone filter
when the selection is non-empty. -/
def applyFilters (tasks : List GanttTask) (dr : DateRangeFilter)
    (sel : List Nat) : List GanttTask :=
  let filtered := filterTasksByDateRange tasks dr
  if 0 < sel.length then filtered.filter (milestoneKeep sel) else filtered

/-- The parent/child-consistency property of the filter output claimed by
the spec: a milestone (summary) node is present iff some present node names
it as parent; a checklist sub-item is present iff its parent issue node is
present. -/
def parentChildConsistent (tasks out : List GanttTask) : Prop :=
  (∀ m ∈ tasks, m.type = TaskType.summary →
    (m ∈ out ↔ ∃ c ∈ out, c.parent = some m.id)) ∧
  (∀ s ∈ tasks, s.isSubtask = true →
    (s ∈ out ↔ ∃ pn ∈ out, pn.isSubtask = false ∧ s.parent = some pn.id))

/-- The svar-side task record built in `GanttChart.tsx`. -/
structure SvarTask where
  id : Nat
  text : String
  start : Date
  «end» : Date
  progress : Nat
  type : TaskType
  parent : Option Nat := none
  «open» : Option Bool := none
  hasOriginalStart : Bool
  hasOriginalEnd : Bool
  originalStart : Option Date
  originalEnd : Option Date
  assignees : List AssigneeInfo
  deriving DecidableEq

/-- `idMapping.stringToNum`: a JS `Map` built by insertion with overwrite,
so the last index wins; indices are 1-based. -/
def stringToNum (tasks : List GanttTask) (s : String) : Option Nat :=
  tasks.enum.foldl
    (fun acc pr => if pr.2.id = s then some (pr.1 + 1) else acc) none

/-- The chart's display date range: ±90 days around `new Date()` when no
task has an original date, else the min start / max end over all tasks with
30 days of padding. -/
def chartDateRange (todayG : Date) (tasks : List GanttTask) : Date × Date :=
  let tasksWithDates := tasks.filter fun t =>
    t.hasOriginalStartDate || t.hasOriginalDueDate
  if tasksWithDates.isEmpty then
    (todayG - 90 * 24 * 60 * 60 * 1000, todayG + 90 * 24 * 60 * 60 * 1000)
  else
    let minD := tasks.foldl
      (fun acc t => if t.start < acc then t.start else acc) 8640000000000000
    let maxD := tasks.foldl
      (fun acc t => if acc < t.«end» then t.«end» else acc) (-8640000000000000)
    (minD - 30 * 24 * 60 * 60 * 1000, maxD + 30 * 24 * 60 * 60 * 1000)

/-- One task of the `svarTasks` conversion: dates fall back to the display
bounds when not original, then `end <= start` is forced to
`start + 1 day`.  (`task.start instanceof Date && !isNaN(...)` always holds
in the model, see the header.) -/
def toSvarTask (tasks : List GanttTask) (rng : Date × Date)
    (t : GanttTask) : SvarTask :=
  let numId := (stringToNum tasks t.id).getD 1
  let parentNumId := t.parent.bind (stringToNum tasks)
  let hs := t.hasOriginalStartDate
  let hd := t.hasOriginalDueDate
  let s0 := if hs then t.start else rng.1
  let e0 := if hd then t.«end» else rng.2
  let e1 := if e0 ≤ s0 then s0 + 24 * 60 * 60 * 1000 else e0
  { id := numId
    text := if t.text = "" then untitledLit else t.text
    start := s0
    «end» := e1
    progress := t.progress.getD 0
    type := t.type
    parent := parentNumId
    «open» := if t.type = TaskType.summary then some true else none
    hasOriginalStart := hs
    hasOriginalEnd := hd
    originalStart := if hs then some t.start else none
    originalEnd := if hd then some t.«end» else none
    assignees := t.assignees.getD [] }

/-- The comparator of the final `sort` (parents first, then by parent id,
then by numeric id), as a `≤`-style relation for a stable merge sort. -/
def svarLe (a b : SvarTask) : Bool :=
  match a.parent, b.parent with
  | none, some _ => true
  | some _, none => false
  | some pa, some pb =>
      if pa < pb then true else if pb < pa then false else a.id ≤ b.id
  | none, none => a.id ≤ b.id

/-- The `svarTasks` memo of `GanttChart.tsx`. -/
def svarTasks (todayG : Date) (tasks : List GanttTask) : List SvarTask :=
  if tasks.isEmpty then []
  else
    let rng := chartDateRange todayG tasks
    List.mergeSort (tasks.map (toSvarTask tasks rng)) svarLe

inductive UpdateOutcome where
  | success
  | failure (msg : Option String)
  deriving DecidableEq

/-- A remote write issued by `updateTaskDates` (`updateMilestone` /
`updateIssue`); the dates are sent formatted as calendar dates. -/
inductive RemoteCall where
  | milestoneUpd (milestoneId : Nat) (s e : Date)
  | issueUpd (iid : Nat) (s e : Date)
  deriving DecidableEq

/-- The hook state that `updateTaskDates` can read and write. -/
structure HookState where
  allTasks : List GanttTask
  issues : List ParsedIssue
  error : Option String
  deriving DecidableEq

/-- `updateTaskDates` from `useGitLabData.ts`.  The outcome of the (at most
one) remote call is a parameter; the returned list records which remote
calls were issued. -/
def updateTaskDates (st : HookState) (outcome : UpdateOutcome)
    (taskId : String) (s e : Date) : HookState × List RemoteCall :=
  match matchIdNum milestoneLit taskId with
  | some mid =>
      match outcome with
      | UpdateOutcome.success =>
          ({ st with allTasks := st.allTasks.map fun t =>
              if t.id = taskId then
                { t with
                  start := s
                  «end» := e
                  hasOriginalStartDate := true
                  hasOriginalDueDate := true }
              else t },
           [RemoteCall.milestoneUpd mid s e])
      | UpdateOutcome.failure m =>
          ({ st with error := some (m.getD msgMilFail) },
           [RemoteCall.milestoneUpd mid s e])
  | none =>
      match matchIdNum issueLit taskId with
      | none => (st, [])
      | some n =>
          match st.issues.find? (fun i => i.id == n) with
          | none => (st, [])
          | some issue =>
              match outcome with
              | UpdateOutcome.success =>
                  ({ st with allTasks := st.allTasks.map fun t =>
                      if t.id = taskId then
                        { t with
                          start := s
                          «end» := e
                          hasOriginalStartDate := true
                          hasOriginalDueDate := true }
                      else t },
                   [RemoteCall.issueUpd issue.iid s e])
              | UpdateOutcome.failure m =>
                  ({ st with error := some (m.getD msgIssueFail) },
                   [RemoteCall.issueUpd issue.iid s e])

/-- A JSON value as produced by `JSON.parse`, plus `undefined` as produced
by property access. -/
inductive Js where
  | null
  | undef
  | jsBool (b : Bool)
  | num (n : Int)
  | str (s : String)
  | arr (elems : List Js)
  | obj (fields : List (String × Js))

/-- JS property read `v.k`: throws (`error`) on `null`/`undefined`, reads
the last binding of an object (JSON duplicate keys: last wins), yields
`undefined` otherwise. -/
def getField (v : Js) (k : String) : Except Unit Js :=
  match v with
  | Js.obj fields =>
      Except.ok ((fields.foldl
        (fun acc f => if f.1 = k then some f.2 else acc) none).getD Js.undef)
  | Js.null => Except.error ()
  | Js.undef => Except.error ()
  | _ => Except.ok Js.undef

/-- JS truthiness of a value. -/
def truthyJs : Js → Bool
  | Js.null => false
  | Js.undef => false
  | Js.jsBool b => b
  | Js.num n => !(n == 0)
  | Js.str s => !(s == "")
  | Js.arr _ => true
  | Js.obj _ => true

/-- A JS `Date` value that may be Invalid (`none`). -/
abbrev JsDate := Option Int

/-- The runtime shape of the `FilterOptions` value produced by
`loadFilterFromStorage`: the TS types promise validated fields, but the
code performs no validation, so fields hold arbitrary parsed JSON. -/
structure FilterOptionsV where
  issueState : Js
  startDate : Option JsDate
  endDate : Option JsDate
  selectedMilestoneIds : Js

/-- The try-block of `loadFilterFromStorage`.  `stored`: `none` = key absent
(or empty, both falsy), `some none` = present but `JSON.parse` throws,
`some (some v)` = parses to `v`.  `newDate` models `new Date(value)`. -/
def loadFilterBody (newDate : Js → JsDate)
    (stored : Option (Option Js)) : Except Unit (Option FilterOptionsV) := do
  match stored with
  | none => return none
  | some none => throw ()
  | some (some parsed) =>
      let ist ← getField parsed keyIssueState
      let dr ← getField parsed keyDateRange
      let sd ← getField dr keyStartDate
      let ed ← getField dr keyEndDate
      let smi ← getField parsed keySelMil
      return some
        { issueState := ist
          startDate := if truthyJs sd then some (newDate sd) else none
          endDate := if truthyJs ed then some (newDate ed) else none
          selectedMilestoneIds := if truthyJs smi then smi else Js.arr [] }

/-- `loadFilterFromStorage`: the catch clause maps any throw to `null`. -/
def loadFilterFromStorage (newDate : Js → JsDate)
    (stored : Option (Option Js)) : Option FilterOptionsV :=
  match loadFilterBody newDate stored with
  | Except.ok r => r
  | Except.error _ => none

/-- `defaultFilterOptions`: opened issues, one month before to two months
after today, no milestone restriction.  `addM` models `setMonth` relative
month arithmetic. -/
def defaultFilterOptions (addM : Date → Int → Date) (today : Date) :
    FilterOptionsV :=
  { issueState := Js.str openedLit
    startDate := some (some (addM today (-1)))
    endDate := some (some (addM today 2))
    selectedMilestoneIds := Js.arr [] }

/-- `getInitialFilterOptions`: the stored value if loading produced one
(any object is truthy), else the defaults. -/
def getInitialFilterOptions (addM : Date → Int → Date)
    (newDate : Js → JsDate) (today : Date)
    (stored : Option (Option Js)) : FilterOptionsV :=
  match loadFilterFromStorage newDate stored with
  | some v => v
  | none => defaultFilterOptions addM today

/-- A concrete date-parsing environment: the two ISO dates used in the
examples, everything else Invalid. -/
def cParse : String → Option Date := fun s =>
  if s = "2024-01-10" then some 1704844800000
  else if s = "2024-01-05" then some 1704412800000
  else none

/-- A milestone whose remote due date lies before its start date. -/
def cMilC1 : GitLabMilestone :=
  { id := 1
    iid := 1
    title := "M1"
    start_date := some ("2024-01-10")
    due_date := some ("2024-01-05")
    web_url := "u" }

def cTaskC1 : GanttTask := convertMilestone cParse 0 cMilC1

def cSvarC1 : SvarTask := toSvarTask [cTaskC1] (chartDateRange 0 [cTaskC1]) cTaskC1

/-- An issue with neither date and unparseable `created_at`: its dates fall
back to the wall-clock read. -/
def cIssueND : ParsedIssue :=
  { id := 5
    iid := 5
    title := "I5"
    state := IssueState.opened
    start_date := none
    due_date := none
    created_at := ""
    milestone := none
    assignees := []
    labelObjects := []
    web_url := "u"
    task_completion_status := none
    tasks := [] }

/-- The spec's date-inference example: neither date set,
`created_at = 2024-01-10`. -/
def cIssueC5 : ParsedIssue :=
  { cIssueND with created_at := "2024-01-10" }

def cNodeC5 : GanttTask := convertIssueMain cParse 1704844800000 cIssueC5

def cMil7 : GitLabMilestone :=
  { id := 7
    iid := 7
    title := "S7"
    start_date := some ("2024-01-05")
    due_date := some ("2024-01-10")
    web_url := "u" }

def cMil9 : GitLabMilestone :=
  { cMil7 with id := 9, iid := 9, title := "S9" }

/-- An issue in milestone 7 carrying one checklist item. -/
def cIssue7 : ParsedIssue :=
  { cIssueND with
    id := 41
    iid := 9
    title := "I41"
    start_date := some ("2024-01-05")
    due_date := some ("2024-01-10")
    created_at := "2024-01-05"
    milestone := some { id := 7 }
    tasks := [{ text := "sub", checked := false }] }

def cIssue9 : ParsedIssue :=
  { cIssue7 with id := 42, iid := 10, milestone := some { id := 9 }, tasks := [] }

def cIssueNoMil : ParsedIssue :=
  { cIssue7 with id := 43, iid := 11, milestone := none, tasks := [] }

def cTasksC2 : List GanttTask := convertToGanttTasks cParse 0 [cMil7] [cIssue7]

def cIssueNodeC2 : GanttTask := convertIssueMain cParse 0 cIssue7

def cSubNodeC2 : GanttTask :=
  convertIssueSub cIssue7 cIssueNodeC2.start cIssueNodeC2.«end» 0
    { text := "sub", checked := false }

def cDrNone : DateRangeFilter := { startDate := none, endDate := none }

def cDrC2 : DateRangeFilter :=
  { startDate := some 1704412800000, endDate := some 1704844800000 }

def cTasksC7 : List GanttTask :=
  convertToGanttTasks cParse 0 [cMil7, cMil9] [cIssue7, cIssue9, cIssueNoMil]

def cStC3 : HookState :=
  { allTasks := cTasksC2
    issues := [cIssue7]
    error := none }

def cAddM : Date → Int → Date := fun d k => d + k * 2592000000

def cNewDate : Js → JsDate := fun _ => none

/-- Valid JSON, wrong schema: `issueState` is junk, `dateRange` is an object
with neither bound, `selectedMilestoneIds` is a string. -/
def cBadStored : Option (Option Js) :=
  some (some (Js.obj
    [(("issueState"), Js.str ("bogus")),
     (("dateRange"), Js.obj []),
     (("selectedMilestoneIds"), Js.str ("junk"))]))

/-- Valid JSON that is not an object: reading `.dateRange.startDate`
throws. -/
def cNum5Stored : Option (Option Js) := some (some (Js.num 5))

theorem contains_iff_mem {α : Type} [BEq α] [LawfulBEq α] (l : List α)
    (a : α) : l.contains a = true ↔ a ∈ l := by
  simp [List.contains, List.elem_iff]

theorem svarTasks_singleton (g : Date) (t : GanttTask) :
    svarTasks g [t] = [toSvarTask [t] (chartDateRange g [t]) t] := by
  unfold svarTasks
  simp only [List.isEmpty_cons, List.map]
  exact List.perm_singleton.mp (List.mergeSort_perm _ _)

/-- Claim C8 (amended): the task tree builder is deterministic given its
inputs together with the value of its single internal clock read
(`today = new Date()`, a parameter of the model): identical milestones,
issues, parsing environment and clock value give structurally identical
output. -/
theorem C8_deterministic_given_clock (p₁ p₂ : String → Option Date)
    (t₁ t₂ : Date) (ms₁ ms₂ : List GitLabMilestone)
    (is₁ is₂ : List ParsedIssue)
    (hp : p₁ = p₂) (ht : t₁ = t₂) (hm : ms₁ = ms₂) (hi : is₁ = is₂) :
    convertToGanttTasks p₁ t₁ ms₁ is₁ = convertToGanttTasks p₂ t₂ ms₂ is₂ := by
  subst hp; subst ht; subst hm; subst hi; rfl

theorem C8_witness :
    cParse = cParse ∧
    convertToGanttTasks cParse 0 [cMil7] [cIssue7] =
      convertToGanttTasks cParse 0 [cMil7] [cIssue7] :=
  ⟨rfl, C8_deterministic_given_clock cParse cParse 0 0 [cMil7] [cMil7]
    [cIssue7] [cIssue7] rfl rfl rfl rfl⟩

/-- Claim C8 counterexample: `convertToGanttTasks` takes no "now" parameter
in the source; it reads `new Date()` internally, so the same
milestone/issue arguments produce different outputs at different clock
instants (here an issue whose dates all fall back to "now"). -/
theorem C8_counterexample :
    convertToGanttTasks cParse 0 [] [cIssueND] ≠
      convertToGanttTasks cParse 86400000 [] [cIssueND] := by decide

/-- Claim C1 (amended): the one-day minimum span is enforced in the chart
conversion (`svarTasks` in `GanttChart.tsx`), not in `convertToGanttTasks`:
every svar task has `end` strictly after `start`, because an effective
`end <= start` is forced to `start + 1 day` there. -/
theorem C1_svar_end_after_start (g : Date) (tasks : List GanttTask)
    (t : SvarTask) (ht : t ∈ svarTasks g tasks) : t.start < t.«end» := by
  unfold svarTasks at ht
  by_cases he : tasks.isEmpty
  · rw [if_pos he] at ht
    simp at ht
  · rw [if_neg he] at ht
    have ht2 := (List.mergeSort_perm (tasks.map
      (toSvarTask tasks (chartDateRange g tasks))) svarLe).mem_iff.mp ht
    obtain ⟨x, _, rfl⟩ := List.mem_map.mp ht2
    simp only [toSvarTask]
    split_ifs <;> linarith

theorem C1_witness :
    cSvarC1 ∈ svarTasks 0 [cTaskC1] ∧ cSvarC1.start < cSvarC1.«end» :=
  have hm : cSvarC1 ∈ svarTasks 0 [cTaskC1] := by
    rw [svarTasks_singleton]
    exact List.mem_singleton.mpr rfl
  ⟨hm, C1_svar_end_after_start 0 [cTaskC1] cSvarC1 hm⟩

/-- Claim C1 counterexample: `convertToGanttTasks` itself performs no
end-after-start correction — a milestone whose remote due date parses to a
time before its start date yields a task node with `end < start`. -/
theorem C1_counterexample :
    ((convertToGanttTasks cParse 0 [cMilC1] []).all fun t =>
      decide (t.start < t.«end»)) = false ∧
    ((convertToGanttTasks cParse 0 [cMilC1] []).map fun t =>
      decide (t.«end» < t.start)) = [true] := by decide

/-- Claim C3: a successful issue-date edit patches exactly the matching
task node (its `start`/`end` become the given dates, both `hasOriginal*`
flags become true) and maps every other node to itself; the `issues` list,
the error state and the single remote call are as expected. -/
theorem C3_issue_update_success (st : HookState) (tid : String) (n : Nat)
    (issue : ParsedIssue) (s e : Date)
    (hm : matchIdNum milestoneLit tid = none)
    (hi : matchIdNum issueLit tid = some n)
    (hf : st.issues.find? (fun i => i.id == n) = some issue) :
    (updateTaskDates st UpdateOutcome.success tid s e).1.allTasks =
      st.allTasks.map (fun t =>
        if t.id = tid then
          { t with
            start := s
            «end» := e
            hasOriginalStartDate := true
            hasOriginalDueDate := true }
        else t) ∧
    (updateTaskDates st UpdateOutcome.success tid s e).1.issues = st.issues ∧
    (updateTaskDates st UpdateOutcome.success tid s e).1.error = st.error ∧
    (updateTaskDates st UpdateOutcome.success tid s e).2 =
      [RemoteCall.issueUpd issue.iid s e] := by
  unfold updateTaskDates
  rw [hm]
  dsimp only
  rw [hi]
  dsimp only
  rw [hf]
  exact ⟨rfl, rfl, rfl, rfl⟩

theorem C3_witness :
    matchIdNum issueLit ("issue-41") = some 41 ∧
    (updateTaskDates cStC3 UpdateOutcome.success ("issue-41") 1 2).1.allTasks =
      cStC3.allTasks.map (fun t =>
        if t.id = ("issue-41") then
          { t with
            start := 1
            «end» := 2
            hasOriginalStartDate := true
            hasOriginalDueDate := true }
        else t) :=
  ⟨by decide,
   (C3_issue_update_success cStC3 ("issue-41") 41 cIssue7 1 2
     (by decide) (by decide) (by decide)).1⟩

/-- Claim C4: when the remote update throws (milestone branch, or issue
branch with a matched fetched issue), the task state and issue list are
unchanged and the error state is set. -/
theorem C4_failure_leaves_state (st : HookState) (tid : String)
    (s e : Date) (msg : Option String)
    (hcall : (∃ m, matchIdNum milestoneLit tid = some m) ∨
      (matchIdNum milestoneLit tid = none ∧
        ∃ n issue, matchIdNum issueLit tid = some n ∧
          st.issues.find? (fun i => i.id == n) = some issue)) :
    (updateTaskDates st (UpdateOutcome.failure msg) tid s e).1.allTasks =
      st.allTasks ∧
    (updateTaskDates st (UpdateOutcome.failure msg) tid s e).1.issues =
      st.issues ∧
    ((updateTaskDates st (UpdateOutcome.failure msg) tid s e).1.error).isSome
      = true := by
  rcases hcall with ⟨m, hm⟩ | ⟨hm, n, issue, hi, hf⟩
  · unfold updateTaskDates
    rw [hm]
    exact ⟨rfl, rfl, rfl⟩
  · unfold updateTaskDates
    rw [hm]
    dsimp only
    rw [hi]
    dsimp only
    rw [hf]
    exact ⟨rfl, rfl, rfl⟩

theorem C4_witness :
    matchIdNum milestoneLit ("milestone-7") = some 7 ∧
    (updateTaskDates cStC3 (UpdateOutcome.failure none)
      ("milestone-7") 1 2).1.allTasks = cStC3.allTasks ∧
    ((updateTaskDates cStC3 (UpdateOutcome.failure none)
      ("milestone-7") 1 2).1.error).isSome = true :=
  have h := C4_failure_leaves_state cStC3 ("milestone-7") 1 2 none
    (Or.inl ⟨7, by decide⟩)
  ⟨by decide, h.1, h.2.2⟩

/-- Claim C10: a well-formed `issue-{n}` id that matches no fetched issue is
a complete no-op — the state is returned unchanged and no remote call is
issued, whatever the remote outcome would have been. -/
theorem C10_unknown_issue_noop (st : HookState) (outcome : UpdateOutcome)
    (tid : String) (s e : Date) (n : Nat)
    (hm : matchIdNum milestoneLit tid = none)
    (hi : matchIdNum issueLit tid = some n)
    (hf : st.issues.find? (fun i => i.id == n) = none) :
    updateTaskDates st outcome tid s e = (st, []) := by
  unfold updateTaskDates
  rw [hm]
  dsimp only
  rw [hi]
  dsimp only
  rw [hf]

theorem C10_witness :
    matchIdNum issueLit ("issue-99") = some 99 ∧
    updateTaskDates cStC3 UpdateOutcome.success ("issue-99") 1 2 =
      (cStC3, []) :=
  ⟨by decide,
   C10_unknown_issue_noop cStC3 UpdateOutcome.success ("issue-99") 1 2 99
     (by decide) (by decide) (by decide)⟩

/-- Claim C5: issue date inference — `start` is the parsed `start_date`,
else the parsed `created_at`, else "now"; `end` is the parsed `due_date`,
else `start + 7 days`; the `hasOriginal*` flags reflect only whether the
respective remote field itself parsed; and the spec's concrete example
(no dates, `created_at = 2024-01-10`, now = 2024-01-10) yields both flags
false, start 2024-01-10 and end 2024-01-17. -/
theorem C5_issue_date_inference (p : String → Option Date) (today : Date)
    (ms : List GitLabMilestone) (issues : List ParsedIssue)
    (i : ParsedIssue) (hmem : i ∈ issues) :
    convertIssueMain p today i ∈ convertToGanttTasks p today ms issues ∧
    (convertIssueMain p today i).start =
      (parseDate p i.start_date).getD
        ((parseDate p (some i.created_at)).getD today) ∧
    (convertIssueMain p today i).«end» =
      (parseDate p i.due_date).getD
        ((convertIssueMain p today i).start + 604800000) ∧
    (convertIssueMain p today i).hasOriginalStartDate =
      (parseDate p i.start_date).isSome ∧
    (convertIssueMain p today i).hasOriginalDueDate =
      (parseDate p i.due_date).isSome ∧
    (cNodeC5.hasOriginalStartDate = false ∧
      cNodeC5.hasOriginalDueDate = false ∧
      cNodeC5.start = 1704844800000 ∧ cNodeC5.«end» = 1705449600000) := by
  refine ⟨?_, ?_, ?_, ?_, ?_, by decide⟩
  · unfold convertToGanttTasks
    refine List.mem_append.mpr (Or.inr ?_)
    refine List.mem_flatMap.mpr ⟨i, hmem, ?_⟩
    unfold convertIssue
    exact List.mem_cons_self _ _
  · cases h1 : parseDate p i.start_date <;>
      cases h2 : parseDate p (some i.created_at) <;>
      simp [convertIssueMain, h1, h2]
  · cases h3 : parseDate p i.due_date <;>
      simp [convertIssueMain, h3, defaultDuration]
  · rfl
  · rfl

theorem C5_witness :
    cIssueC5 ∈ [cIssueC5] ∧
    convertIssueMain cParse 1704844800000 cIssueC5 ∈
      convertToGanttTasks cParse 1704844800000 [] [cIssueC5] :=
  ⟨List.mem_singleton.mpr rfl,
   (C5_issue_date_inference cParse 1704844800000 [] [cIssueC5] cIssueC5
     (List.mem_singleton.mpr rfl)).1⟩

/-- Claim C7: with a non-empty milestone selection the filter is the date
filter AND the milestone predicate; the milestone predicate keeps a summary
node with a (non-zero) milestone id iff that id is selected, excludes every
issue node without a parent, and keeps an issue node iff its parent parses
as `milestone-{n}` with `n` selected. -/
theorem C7_milestone_filter (sel : List Nat) :
    (∀ tasks dr, sel ≠ [] → ∀ t,
      (t ∈ applyFilters tasks dr sel ↔
        t ∈ filterTasksByDateRange tasks dr ∧ milestoneKeep sel t = true)) ∧
    (∀ t m, t.type = TaskType.summary → t.milestoneId = some m → m ≠ 0 →
      (milestoneKeep sel t = true ↔ m ∈ sel)) ∧
    (∀ t, t.type = TaskType.task → t.parent = none →
      milestoneKeep sel t = false) ∧
    (∀ t pr, t.type = TaskType.task → t.parent = some pr →
      (milestoneKeep sel t = true ↔
        ∃ nid, matchIdNum milestoneLit pr = some nid ∧ nid ∈ sel)) := by
  refine ⟨?_, ?_, ?_, ?_⟩
  · intro tasks dr hne t
    unfold applyFilters
    rw [if_pos (List.length_pos.mpr hne)]
    exact List.mem_filter
  · intro t m h1 h2 h3
    simp [milestoneKeep, milestoneIdTruthy, h1, h2, h3, contains_iff_mem]
  · intro t h1 h2
    simp [milestoneKeep, milestoneIdTruthy, h1, h2]
  · intro t pr h1 h2
    cases hmi : matchIdNum milestoneLit pr <;>
      simp [milestoneKeep, milestoneIdTruthy, h1, h2, hmi, contains_iff_mem]

theorem C7_witness :
    (convertIssueMain cParse 0 cIssue9).type = TaskType.task ∧
    (milestoneKeep [7] (convertIssueMain cParse 0 cIssue9) = true ↔
      ∃ nid, matchIdNum milestoneLit ("milestone-9") = some nid ∧
        nid ∈ [7]) ∧
    milestoneKeep [7] (convertIssueMain cParse 0 cIssueNoMil) = false ∧
    (milestoneKeep [7] (convertIssueMain cParse 0 cIssue7) = true ↔
      ∃ nid, matchIdNum milestoneLit ("milestone-7") = some nid ∧
        nid ∈ [7]) ∧
    (cIssueNodeC2 ∈ applyFilters cTasksC7 cDrC2 [7] ↔
      cIssueNodeC2 ∈ filterTasksByDateRange cTasksC7 cDrC2 ∧
        milestoneKeep [7] cIssueNodeC2 = true) :=
  have h := C7_milestone_filter [7]
  ⟨by decide,
   h.2.2.2 _ _ (by decide) (by decide),
   h.2.2.1 _ (by decide) (by decide),
   h.2.2.2 _ _ (by decide) (by decide),
   h.1 cTasksC7 cDrC2 (by decide) cIssueNodeC2⟩

/-- Claim C9 (amended): loading the persisted filter never throws — an
absent key, an unparseable stored string, and any stored JSON whose field
access throws (non-object, missing `dateRange`) all fall back to the
documented default (`opened`, one month before to two months after now, no
milestone restriction); but schema-malformed JSON that parses and has an
object `dateRange` is returned unvalidated instead of the default. -/
theorem C9_default_fallback :
    (∀ addM newDate today,
      getInitialFilterOptions addM newDate today none =
        defaultFilterOptions addM today) ∧
    (∀ addM newDate today,
      getInitialFilterOptions addM newDate today (some none) =
        defaultFilterOptions addM today) ∧
    (∀ addM newDate today stored,
      loadFilterBody newDate stored = Except.error () →
      getInitialFilterOptions addM newDate today stored =
        defaultFilterOptions addM today) ∧
    (∀ addM today,
      (defaultFilterOptions addM today).issueState = Js.str openedLit ∧
      (defaultFilterOptions addM today).startDate =
        some (some (addM today (-1))) ∧
      (defaultFilterOptions addM today).endDate =
        some (some (addM today 2)) ∧
      (defaultFilterOptions addM today).selectedMilestoneIds = Js.arr []) := by
  refine ⟨fun _ _ _ => rfl, fun _ _ _ => rfl, ?_,
    fun _ _ => ⟨rfl, rfl, rfl, rfl⟩⟩
  intro aM nD td stored h
  unfold getInitialFilterOptions loadFilterFromStorage
  rw [h]

theorem C9_witness :
    loadFilterBody cNewDate cNum5Stored = Except.error () ∧
    getInitialFilterOptions cAddM cNewDate 0 cNum5Stored =
      defaultFilterOptions cAddM 0 :=
  ⟨rfl, C9_default_fallback.2.2.1 cAddM cNewDate 0 cNum5Stored rfl⟩

/-- Claim C9 counterexample: a stored value that is valid JSON but
schema-malformed (junk `issueState`, `dateRange` an object without bounds,
`selectedMilestoneIds` a string) is NOT replaced by the default — it is
returned as the initial filter state with its junk fields intact. -/
theorem C9_counterexample :
    (getInitialFilterOptions cAddM cNewDate 0 cBadStored).issueState =
      Js.str ("bogus") ∧
    getInitialFilterOptions cAddM cNewDate 0 cBadStored ≠
      defaultFilterOptions cAddM 0 := by
  constructor
  · rfl
  · intro h
    have h2 : Js.str ("bogus") = Js.str openedLit :=
      congrArg FilterOptionsV.issueState h
    injection h2 with h3
    exact absurd h3 (by decide)

theorem dropWhile_ws_append (w r : List Char) (b : Char)
    (hw : ∀ c ∈ w, Char.isWhitespace c) (hb : Char.isWhitespace b = false) :
    (w ++ b :: r).dropWhile Char.isWhitespace = b :: r := by
  induction w with
  | nil => simp [List.dropWhile_cons, hb]
  | cons c cs ih =>
      have hc : Char.isWhitespace c = true := hw c (List.mem_cons_self c cs)
      rw [List.cons_append, List.dropWhile_cons, if_pos hc]
      exact ih fun x hx => hw x (List.mem_cons_of_mem c hx)

/-- Claim C6: checklist extraction matches, in order, exactly the lines of
the form optional whitespace, `-`/`*` bullet, `[ ]`/`[x]`/`[X]` checkbox
(case-insensitive mark), then at least one character of text; the spec's
two concrete examples; concatenation of line blocks concatenates the
extraction. -/
theorem C6_checklist_extraction :
    parseTasksFromDescription (some ("- [x] A\n- [ ] B\n* [X] C")) =
      [{ text := "A", checked := true }, { text := "B", checked := false },
       { text := "C", checked := true }] ∧
    parseTasksFromDescription (some ("[ ] D")) = [] ∧
    (∀ l1 l2 : List (List Char),
      parseLines (l1 ++ l2) = parseLines l1 ++ parseLines l2) ∧
    (∀ d : String, d ≠ "" →
      parseTasksFromDescription (some d) = parseLines (splitLines d)) ∧
    (∀ w1 w2 rest : List Char, ∀ b m : Char,
      (∀ c ∈ w1, Char.isWhitespace c) → (b = '-' ∨ b = '*') →
      (∀ c ∈ w2, Char.isWhitespace c) → (m = ' ' ∨ m = 'x' ∨ m = 'X') →
      rest ≠ [] →
      matchTaskLine (w1 ++ b :: (w2 ++ '[' :: m :: ']' :: rest)) =
        some { text := String.mk (trimChars rest),
               checked := m == 'x' || m == 'X' }) := by
  refine ⟨by decide, by decide, ?_, ?_, ?_⟩
  · intro l1 l2
    exact List.filterMap_append l1 l2 matchTaskLine
  · intro d hd
    show (if d = "" then [] else parseLines (splitLines d)) =
      parseLines (splitLines d)
    rw [if_neg hd]
  · intro w1 w2 rest b m hw1 hb hw2 hm hrest
    have hbw : Char.isWhitespace b = false := by
      rcases hb with rfl | rfl <;> decide
    unfold matchTaskLine
    rw [dropWhile_ws_append w1 (w2 ++ '[' :: m :: ']' :: rest) b hw1 hbw]
    show (if b = '-' ∨ b = '*' then
      bulletPart (w2 ++ '[' :: m :: ']' :: rest) else none) = _
    rw [if_pos hb]
    unfold bulletPart
    rw [dropWhile_ws_append w2 (m :: ']' :: rest) '[' hw2 (by decide)]
    show (if ('[' : Char) = '[' ∧ (']' : Char) = ']' ∧
        (m = ' ' ∨ m = 'x' ∨ m = 'X') ∧ rest ≠ [] then
        some ({ text := String.mk (trimChars rest),
                checked := m == 'x' || m == 'X' } : TaskItem) else none) = _
    rw [if_pos ⟨rfl, rfl, hm, hrest⟩]

theorem truthyParent_eq_some (c : GanttTask) (x : String) :
    truthyParent c = some x ↔ c.parent = some x ∧ x ≠ "" := by
  unfold truthyParent
  cases hp : c.parent with
  | none => simp
  | some pr =>
      by_cases hpr : pr = ""
      · subst hpr
        simp
        exact fun h => h.symm
      · simp only [if_neg hpr, Option.some.injEq]
        exact ⟨fun h => ⟨h, h ▸ hpr⟩, fun h => h.1⟩

theorem subParentOk_iff (ids : List String) (t : GanttTask) :
    subParentOk ids t = true ↔
      ∃ pr, t.parent = some pr ∧ pr ≠ "" ∧ ids.contains pr = true := by
  unfold subParentOk
  cases hp : t.parent with
  | none => simp
  | some pr => simp [Bool.and_eq_true, Bool.not_eq_true', beq_eq_false_iff_ne]

theorem mem_filteredOf (dr : DateRangeFilter) (tasks : List GanttTask)
    (t : GanttTask) :
    t ∈ filteredOf dr tasks ↔ t ∈ tasks ∧ firstPass dr t = true := by
  unfold filteredOf
  exact List.mem_filter

theorem contains_parentIdsOf (dr : DateRangeFilter)
    (tasks : List GanttTask) (x : String) :
    (parentIdsOf dr tasks).contains x = true ↔
      ∃ c ∈ filteredOf dr tasks, c.parent = some x ∧ x ≠ "" := by
  rw [contains_iff_mem]
  unfold parentIdsOf
  rw [List.mem_filterMap]
  constructor
  · rintro ⟨a, ha, hx⟩
    exact ⟨a, ha, (truthyParent_eq_some a x).mp hx⟩
  · rintro ⟨a, ha, h1, h2⟩
    exact ⟨a, ha, (truthyParent_eq_some a x).mpr ⟨h1, h2⟩⟩

theorem mem_milestonesOf (dr : DateRangeFilter) (tasks : List GanttTask)
    (t : GanttTask) :
    t ∈ milestonesOf dr tasks ↔
      t ∈ tasks ∧ t.type = TaskType.summary ∧
        (parentIdsOf dr tasks).contains t.id = true := by
  unfold milestonesOf
  rw [List.mem_filter]
  simp [Bool.and_eq_true, decide_eq_true_eq, and_assoc]

theorem contains_issueIdsOf (dr : DateRangeFilter)
    (tasks : List GanttTask) (x : String) :
    (issueIdsOf dr tasks).contains x = true ↔
      ∃ q ∈ filteredOf dr tasks, q.isSubtask = false ∧ q.id = x := by
  rw [contains_iff_mem]
  unfold issueIdsOf
  simp [List.mem_map, List.mem_filter, Bool.not_eq_true', and_assoc]

theorem mem_validSubtasksOf (dr : DateRangeFilter)
    (tasks : List GanttTask) (t : GanttTask) :
    t ∈ validSubtasksOf dr tasks ↔
      t ∈ filteredOf dr tasks ∧
        (t.isSubtask = false ∨ subParentOk (issueIdsOf dr tasks) t = true) := by
  unfold validSubtasksOf
  rw [List.mem_filter]
  simp [Bool.or_eq_true, Bool.not_eq_true']

theorem firstPass_ne_summary {dr : DateRangeFilter} {t : GanttTask}
    (h : firstPass dr t = true) : t.type ≠ TaskType.summary := by
  intro hs
  unfold firstPass at h
  rw [if_pos hs] at h
  exact Bool.false_ne_true h

theorem firstPass_of_subtask {dr : DateRangeFilter} {t : GanttTask}
    (h1 : t.type ≠ TaskType.summary) (h2 : t.isSubtask = true) :
    firstPass dr t = true := by
  unfold firstPass
  rw [if_neg h1, if_pos h2]

/-- Claim C2 (amended): for the date-range stage alone (empty milestone
restriction), with at least one bound set, on well-formed task lists
(non-empty ids, milestone nodes carry no parent, checklist sub-items are
non-summary and never parented to a milestone node — all guaranteed for
builder output), the filter output is parent/child consistent. -/
theorem C2_filter_parent_child (tasks : List GanttTask)
    (dr : DateRangeFilter)
    (hb : ¬(dr.startDate = none ∧ dr.endDate = none))
    (hid : ∀ t ∈ tasks, t.id ≠ "")
    (hms : ∀ m ∈ tasks, m.type = TaskType.summary → m.parent = none)
    (hsub : ∀ s ∈ tasks, s.isSubtask = true → s.type ≠ TaskType.summary)
    (hsp : ∀ s ∈ tasks, s.isSubtask = true →
      ∀ m ∈ tasks, m.type = TaskType.summary → s.parent ≠ some m.id) :
    parentChildConsistent tasks (filterTasksByDateRange tasks dr) := by
  have hout : filterTasksByDateRange tasks dr =
      milestonesOf dr tasks ++ validSubtasksOf dr tasks := by
    unfold filterTasksByDateRange
    rw [if_neg hb]
    rfl
  rw [hout]
  unfold parentChildConsistent
  constructor
  · intro m hm hsumm
    constructor
    · intro hmem
      rcases List.mem_append.mp hmem with hmem1 | hmem2
      · obtain ⟨-, -, hcont⟩ := (mem_milestonesOf dr tasks m).mp hmem1
        obtain ⟨c, hcf, hcp, -⟩ :=
          (contains_parentIdsOf dr tasks m.id).mp hcont
        obtain ⟨hct, -⟩ := (mem_filteredOf dr tasks c).mp hcf
        have hcsub : c.isSubtask = false := by
          cases hcs : c.isSubtask with
          | false => rfl
          | true => exact absurd hcp (hsp c hct hcs m hm hsumm)
        have hcv : c ∈ validSubtasksOf dr tasks :=
          (mem_validSubtasksOf dr tasks c).mpr ⟨hcf, Or.inl hcsub⟩
        exact ⟨c, List.mem_append.mpr (Or.inr hcv), hcp⟩
      · obtain ⟨hcf, -⟩ := (mem_validSubtasksOf dr tasks m).mp hmem2
        obtain ⟨-, hfp⟩ := (mem_filteredOf dr tasks m).mp hcf
        exact absurd hsumm (firstPass_ne_summary hfp)
    · rintro ⟨c, hcout, hcp⟩
      have hcv : c ∈ validSubtasksOf dr tasks := by
        rcases List.mem_append.mp hcout with h1 | h2
        · obtain ⟨hct, hcs, -⟩ := (mem_milestonesOf dr tasks c).mp h1
          rw [hms c hct hcs] at hcp
          exact Option.noConfusion hcp
        · exact h2
      obtain ⟨hcf, -⟩ := (mem_validSubtasksOf dr tasks c).mp hcv
      have hcont : (parentIdsOf dr tasks).contains m.id = true :=
        (contains_parentIdsOf dr tasks m.id).mpr ⟨c, hcf, hcp, hid m hm⟩
      exact List.mem_append.mpr
        (Or.inl ((mem_milestonesOf dr tasks m).mpr ⟨hm, hsumm, hcont⟩))
  · intro s hs hssub
    have hsns := hsub s hs hssub
    have hsf : s ∈ filteredOf dr tasks :=
      (mem_filteredOf dr tasks s).mpr ⟨hs, firstPass_of_subtask hsns hssub⟩
    constructor
    · intro hmem
      have hsv : s ∈ validSubtasksOf dr tasks := by
        rcases List.mem_append.mp hmem with h1 | h2
        · obtain ⟨-, hcs, -⟩ := (mem_milestonesOf dr tasks s).mp h1
          exact absurd hcs hsns
        · exact h2
      obtain ⟨-, hok⟩ := (mem_validSubtasksOf dr tasks s).mp hsv
      rcases hok with hfalse | hok
      · rw [hssub] at hfalse
        exact Bool.noConfusion hfalse
      · obtain ⟨pr, hpr, -, hcont⟩ := (subParentOk_iff _ s).mp hok
        obtain ⟨q, hqf, hqs, hqid⟩ :=
          (contains_issueIdsOf dr tasks pr).mp hcont
        have hqv : q ∈ validSubtasksOf dr tasks :=
          (mem_validSubtasksOf dr tasks q).mpr ⟨hqf, Or.inl hqs⟩
        refine ⟨q, List.mem_append.mpr (Or.inr hqv), hqs, ?_⟩
        rw [hpr, hqid]
    · rintro ⟨pn, hpnout, hpns, hpp⟩
      have hpnv : pn ∈ validSubtasksOf dr tasks := by
        rcases List.mem_append.mp hpnout with h1 | h2
        · obtain ⟨hpt, hpsumm, -⟩ := (mem_milestonesOf dr tasks pn).mp h1
          exact absurd hpp (hsp s hs hssub pn hpt hpsumm)
        · exact h2
      obtain ⟨hpf, -⟩ := (mem_validSubtasksOf dr tasks pn).mp hpnv
      have hpid : pn.id ≠ "" :=
        hid pn ((mem_filteredOf dr tasks pn).mp hpf).1
      have hcont : (issueIdsOf dr tasks).contains pn.id = true :=
        (contains_issueIdsOf dr tasks pn.id).mpr ⟨pn, hpf, hpns, rfl⟩
      have hok : subParentOk (issueIdsOf dr tasks) s = true :=
        (subParentOk_iff _ s).mpr ⟨pn.id, hpp, hpid, hcont⟩
      exact List.mem_append.mpr (Or.inr
        ((mem_validSubtasksOf dr tasks s).mpr ⟨hsf, Or.inr hok⟩))

theorem C2_witness :
    ¬(cDrC2.startDate = none ∧ cDrC2.endDate = none) ∧
    parentChildConsistent cTasksC2 (filterTasksByDateRange cTasksC2 cDrC2) :=
  ⟨by decide,
   C2_filter_parent_child cTasksC2 cDrC2 (by decide) (by decide)
     (by decide) (by decide) (by decide)⟩

/-- Claim C2 counterexample: under a non-empty milestone restriction the
combined filter keeps the issue node of a selected milestone but drops its
checklist sub-item (whose parent is `issue-41`, not `milestone-{n}`), so a
sub-item is absent while its parent issue is present. -/
theorem C2_counterexample :
    cSubNodeC2 ∈ cTasksC2 ∧ cSubNodeC2.isSubtask = true ∧
    cSubNodeC2.parent = some cIssueNodeC2.id ∧
    cIssueNodeC2 ∈ applyFilters cTasksC2 cDrNone [7] ∧
    cSubNodeC2 ∉ applyFilters cTasksC2 cDrNone [7] := by decide

theorem C6_witness :
    parseTasksFromDescription (some ("- [x] A")) =
      parseLines (splitLines ("- [x] A")) ∧
    matchTaskLine
      (([' '] : List Char) ++ '-' :: ([' '] ++ '[' :: 'x' :: ']' :: [' ', 'A'])) =
      some { text := String.mk (trimChars [' ', 'A']), checked := true } :=
  ⟨C6_checklist_extraction.2.2.2.1 ("- [x] A") (by decide),
   C6_checklist_extraction.2.2.2.2 [' '] [' '] [' ', 'A'] '-' 'x'
     (by decide) (Or.inl rfl) (by decide) (by decide) (by decide)⟩
